import Mathlib


/-!
Verification of the analytics & forecasting layer of a personal finance
tracker (files backend/analytics.py and backend/ml_predictions.py).

Shallow embedding conventions:
* monetary amounts and computed statistics are exact rationals;
* calendar dates are triples (year, month, day) and date arithmetic is the
  standard proleptic-Gregorian day count (`rataDie`, the days-from-civil
  algorithm), so `date.today() - timedelta(days = k)` becomes
  `rataDie today - k` and date comparisons compare day counts;
* pandas `groupby` sorts the group keys ascending, summing each group;
* the current date (`date.today()` in the source) is an explicit argument.
-/

namespace ExpTracker

/-- Transaction kind, from `TransactionType` in backend/models.py. -/
inductive TxKind where
  | income
  | expense
deriving DecidableEq, Repr

/-- A calendar date.  Year may be any integer; month and day are stored as
integers so that day-count arithmetic stays in `Int`. -/
structure Date where
  year : Int
  month : Int
  day : Int
deriving DecidableEq, Repr

/-- A row of the in-memory transaction view built by
`transactions_to_dataframe` in backend/analytics.py: resolved category name,
category id, amount, kind, date, description. -/
structure Tx where
  id : Nat
  date : Date
  amount : ℚ
  categoryId : Nat
  category : String
  descr : String
  kind : TxKind
deriving DecidableEq, Repr

/-- A budget row (backend/models.py `Budget`), with the category name
resolved through `category_rel` as the analytics code does. -/
structure Budget where
  categoryId : Nat
  category : String
  monthlyLimit : ℚ
deriving DecidableEq, Repr

/-- Day count of a civil date (days since 1970-01-01), the standard
days-from-civil algorithm; all intermediate divisions act on non-negative
arguments, written with explicit floor/Euclidean division. -/
def rataDie (d : Date) : Int :=
  let y : Int := if d.month ≤ 2 then d.year - 1 else d.year
  let era : Int := Int.fdiv y 400
  let yoe : Int := y - era * 400
  let mp : Int := if 2 < d.month then d.month - 3 else d.month + 9
  let doy : Int := Int.ediv (153 * mp + 2) 5 + d.day - 1
  let doe : Int := yoe * 365 + Int.ediv yoe 4 - Int.ediv yoe 100 + doy
  era * 146097 + doe - 719468

/-- Weekday name of a date, as produced by pandas `dt.day_name()`.
1970-01-01 (day count 0) was a Thursday. -/
def dayName (d : Date) : String :=
  match ((rataDie d + 3).emod 7).toNat with
  | 0 => "Monday"
  | 1 => "Tuesday"
  | 2 => "Wednesday"
  | 3 => "Thursday"
  | 4 => "Friday"
  | 5 => "Saturday"
  | _ => "Sunday"

/-- Month bucket of a date: the number of whole months since year 0, the key
pandas uses when grouping by `dt.to_period(M)` (chronological order of the
buckets is the numeric order of this key). -/
def monthKey (d : Date) : Int :=
  d.year * 12 + (d.month - 1)

/-- Render a month bucket as the `YYYY-MM` string that
`astype(str)` produces on a monthly period. -/
def monthStrOfKey (k : Int) : String :=
  let y := Int.fdiv k 12
  let m := Int.emod k 12 + 1
  toString y ++ "-" ++ (if m < 10 then "0" ++ toString m else toString m)

/-- The expense rows of a view (`df[df[type] == expense]`). -/
def expenseRows (txs : List Tx) : List Tx :=
  txs.filter (fun t => decide (t.kind = TxKind.expense))

/-- pandas `groupby(key)[amount].sum()`: the distinct keys in ascending
order, each paired with the sum of the amounts of its rows. -/
def groupTotals {κ : Type} [LinearOrder κ] [DecidableEq κ] (key : Tx → κ)
    (rows : List Tx) : List (κ × ℚ) :=
  (List.insertionSort (fun a b => a ≤ b) (rows.map key).dedup).map
    (fun k => (k, ((rows.filter (fun t => decide (key t = k))).map Tx.amount).sum))

/-- First day of the month of `d` (used for current-month windows). -/
def startOfMonth (d : Date) : Date :=
  ⟨d.year, d.month, 1⟩

/-- Date lies in the inclusive day-count window `[lo, hi]`. -/
def inDayWindow (lo hi : Int) (d : Date) : Prop :=
  lo ≤ rataDie d ∧ rataDie d ≤ hi

instance (lo hi : Int) (d : Date) : Decidable (inDayWindow lo hi d) := by
  unfold inDayWindow; infer_instance

/-! ## Trend aggregation (backend/analytics.py, get_monthly_spending_trend)

The source computes `start_date = today - timedelta(days = months * 30)`,
reads the transactions with `start_date <= date <= today`, returns `[]`
when nothing matched, keeps the expense rows, groups them by calendar
month and serializes each monthly period as a `YYYY-MM` string. -/

/-- `get_monthly_spending_trend(db, months)` with the current date and the
stored transactions made explicit. -/
def get_monthly_spending_trend (today : Date) (months : Nat) (txs : List Tx) :
    List (String × ℚ) :=
  let rows := txs.filter
    (fun t => decide (inDayWindow (rataDie today - 30 * months) (rataDie today) t.date))
  if rows.isEmpty then []
  else (groupTotals (fun t => monthKey t.date) (expenseRows rows)).map
    (fun p => (monthStrOfKey p.1, p.2))

/-- Modelled from the spec: the calendar-bucket policy the spec prescribes
for "last N months" — group the full expense series by calendar month and
take the most recent N entries of the grouped series. -/
def lastNMonthBuckets (months : Nat) (txs : List Tx) : List (String × ℚ) :=
  let series := (groupTotals (fun t => monthKey t.date) (expenseRows txs)).map
    (fun p => (monthStrOfKey p.1, p.2))
  series.drop (series.length - months)

/-- The rolling-window policy the source actually implements: keep only the
transactions dated inside the fixed `months * 30`-day window ending today,
then group the expense rows among them by calendar month. -/
def windowedMonthlyPolicy (today : Date) (months : Nat) (txs : List Tx) :
    List (String × ℚ) :=
  (groupTotals (fun t => monthKey t.date)
    (txs.filter (fun t => decide (t.kind = TxKind.expense) &&
      decide (inDayWindow (rataDie today - 30 * months) (rataDie today) t.date)))).map
    (fun p => (monthStrOfKey p.1, p.2))

/-! ## Spending patterns (backend/analytics.py, get_spending_patterns)

Only the `by_day_of_week` component is modelled here; it is the object of
the day-of-week claims.  The source builds it as
`df_expenses.groupby(day_name)[amount].sum().to_dict()`, after returning an
error sentinel when the view or its expense part is empty.  The dictionary
is modelled as its association list in the (alphabetical) ascending key
order that the pandas groupby produces; `none` models the error sentinel. -/

/-- The `by_day_of_week` field of `get_spending_patterns`. -/
def spendingPatternsByDay (txs : List Tx) : Option (List (String × ℚ)) :=
  if txs.isEmpty then none
  else
    let es := expenseRows txs
    if es.isEmpty then none
    else some (groupTotals (fun t => dayName t.date) es)

/-! ## Top spending categories (backend/analytics.py, get_top_spending_categories)

The source groups the expense rows by category name (pandas sorts the group
keys ascending), then applies `sort_values(ascending=False)`.  pandas
computes a descending sort as an ascending argsort followed by a reversal.
The argsort uses the numpy default quicksort (introsort), which is not
stable in general, so for rows with equal totals the program specifies only
the multiset of entries and the non-increasing order of the totals, not the
relative order of ties; below the small-array cutoff numpy runs insertion
sort, which is stable, so on small inputs ties keep their ascending-by-name
group order and come out name-descending after the reversal.  The embedding
must pick one concrete order and uses exactly that stable-ascending sort
followed by a reversal: it agrees with the program up to the order of equal
totals on every input, and exactly on inputs inside the insertion-sort
regime (every concrete input below is).  No universal theorem below
depends on the chosen tie order.  `head(limit)` takes the first `limit`
entries. -/

/-- The ascending comparison of the embedded sort: by total, with the
pre-existing name order breaking ties. -/
def amtNameLe (a b : String × ℚ) : Prop :=
  a.2 < b.2 ∨ (a.2 = b.2 ∧ a.1 ≤ b.1)

instance : DecidableRel amtNameLe := by
  unfold amtNameLe; infer_instance

instance : IsTotal (String × ℚ) amtNameLe where
  total := by
    intro a b
    unfold amtNameLe
    rcases lt_trichotomy a.2 b.2 with h | h | h
    · exact Or.inl (Or.inl h)
    · rcases le_total a.1 b.1 with h' | h'
      · exact Or.inl (Or.inr ⟨h, h'⟩)
      · exact Or.inr (Or.inr ⟨h.symm, h'⟩)
    · exact Or.inr (Or.inl h)

instance : IsTrans (String × ℚ) amtNameLe where
  trans := by
    intro a b c hab hbc
    unfold amtNameLe at *
    rcases hab with h1 | ⟨h1, h1'⟩ <;> rcases hbc with h2 | ⟨h2, h2'⟩
    · exact Or.inl (h1.trans h2)
    · exact Or.inl (h2 ▸ h1)
    · exact Or.inl (h1.symm ▸ h2)
    · exact Or.inr ⟨h1.trans h2, h1'.trans h2'⟩

/-- `get_top_spending_categories(db, limit, start_date, end_date)`. -/
def get_top_spending_categories (limit : Nat) (s e : Option Date) (txs : List Tx) :
    List (String × ℚ) :=
  let rows := txs.filter (fun t =>
    (match s with | none => true | some lo => decide (rataDie lo ≤ rataDie t.date)) &&
    (match e with | none => true | some hi => decide (rataDie t.date ≤ rataDie hi)))
  if rows.isEmpty then []
  else
    ((List.insertionSort amtNameLe
      (groupTotals (fun t => t.category) (expenseRows rows))).reverse).take limit

/-! ## Unusual spending (backend/analytics.py, get_unusual_spending)

The source returns `[]` when the whole view holds fewer than 5 rows
(income rows included); otherwise, per category of the expense rows, it
takes the mean and the pandas sample standard deviation (`std`, ddof = 1,
undefined for a single row) of the amounts and flags a row when the
standard deviation is defined and positive and `|amount - mean| / std`
exceeds the threshold (default 2.0).  The comparison is embedded in the
equivalent squared form `(amount - mean)^2 > threshold^2 * variance`,
which avoids the irrational square root; it is equivalent for the
non-negative thresholds the source uses since both sides are squares of
non-negative reals. -/

/-- Mean of a list of amounts (`0` on the empty list, never consulted
there by the callers below). -/
def listMean (l : List ℚ) : ℚ :=
  l.sum / l.length

/-- Sample variance with ddof = 1 (the square of the pandas `std`); the
`n = 1` case divides by zero and yields `0`, and is excluded by the
`2 ≤ length` guard everywhere it is used. -/
def sampleVar (l : List ℚ) : ℚ :=
  ((l.map (fun x => (x - listMean l) ^ 2)).sum) / ((l.length : ℚ) - 1)

/-- The expense amounts of one category across the whole view. -/
def catAmounts (txs : List Tx) (c : String) : List ℚ :=
  ((expenseRows txs).filter (fun t => decide (t.category = c))).map Tx.amount

/-- The flagging condition of the z-score detector for one expense row:
the category standard deviation is defined (at least two samples) and
positive, and the squared z-score of the amount exceeds the squared
threshold. -/
def zFlag (txs : List Tx) (thr : ℚ) (t : Tx) : Prop :=
  2 ≤ (catAmounts txs t.category).length ∧
  0 < sampleVar (catAmounts txs t.category) ∧
  thr ^ 2 * sampleVar (catAmounts txs t.category) <
    (t.amount - listMean (catAmounts txs t.category)) ^ 2

instance (txs : List Tx) (thr : ℚ) (t : Tx) : Decidable (zFlag txs thr t) := by
  unfold zFlag; infer_instance

/-- `get_unusual_spending(db, std_threshold)`: the flagged rows, in view
order. -/
def get_unusual_spending (txs : List Tx) (thr : ℚ) : List Tx :=
  if txs.length < 5 then []
  else (expenseRows txs).filter (fun t => decide (zFlag txs thr t))

/-! ## Budget alerts (backend/analytics.py, get_budget_alerts)

The source sums the expense transactions of the current calendar month
(first of month through today, inclusive) per category id, returns `[]`
when there are none, and for every budget computes
`percentage = spent / monthly_limit * 100` when the limit is positive and
`0` otherwise, attaches level critical / warning / info at the 100 / 90 /
75 thresholds, skips the budget below 75, and sorts the collected alerts
by percentage descending (Python `sorted` with `reverse=True`, a stable
sort).  The `message` field is a string rendering of the percentage and is
not modelled. -/

/-- One produced alert. -/
structure Alert where
  category : String
  budget : ℚ
  spent : ℚ
  remaining : ℚ
  percentage : ℚ
  alertLevel : String
deriving DecidableEq, Repr

/-- The expense transactions dated in the current calendar month. -/
def monthExpenses (today : Date) (txs : List Tx) : List Tx :=
  txs.filter (fun t => decide (t.kind = TxKind.expense) &&
    decide (inDayWindow (rataDie (startOfMonth today)) (rataDie today) t.date))

/-- Current-month expense spend of one category id. -/
def monthSpend (today : Date) (txs : List Tx) (cid : Nat) : ℚ :=
  (((monthExpenses today txs).filter (fun t => decide (t.categoryId = cid))).map
    Tx.amount).sum

/-- The percentage-of-budget figure of one budget. -/
def pctOf (today : Date) (txs : List Tx) (b : Budget) : ℚ :=
  if 0 < b.monthlyLimit then
    monthSpend today txs b.categoryId / b.monthlyLimit * 100
  else 0

/-- The alert level attached to a percentage, `none` when no alert is
emitted. -/
def levelOf (p : ℚ) : Option String :=
  if 100 ≤ p then some "critical"
  else if 90 ≤ p then some "warning"
  else if 75 ≤ p then some "info"
  else none

/-- The alert a single budget contributes, if any. -/
def alertOf (today : Date) (txs : List Tx) (b : Budget) : Option Alert :=
  (levelOf (pctOf today txs b)).map (fun lv =>
    { category := b.category
      budget := b.monthlyLimit
      spent := monthSpend today txs b.categoryId
      remaining := b.monthlyLimit - monthSpend today txs b.categoryId
      percentage := pctOf today txs b
      alertLevel := lv })

/-- Descending-percentage comparison used to sort the alert list. -/
def alertGe (a b : Alert) : Prop :=
  b.percentage ≤ a.percentage

instance : DecidableRel alertGe := by
  unfold alertGe; infer_instance

/-- `get_budget_alerts(db)` with today, the transactions and the budgets
made explicit. -/
def get_budget_alerts (today : Date) (txs : List Tx) (budgets : List Budget) :
    List Alert :=
  if (monthExpenses today txs).isEmpty then []
  else List.insertionSort alertGe (budgets.filterMap (alertOf today txs))

/-! ## Monthly series and next-month prediction (backend/ml_predictions.py)

`get_monthly_spending_data` windows the expense transactions to the last
`months_back * 30` days, optionally restricts to one category id (the
Python guard `if category_id:` also skips the filter for id 0, modelled
verbatim), groups by calendar month and returns the chronological list of
monthly sums; the index of an entry is its `month_num`.

`predict_next_month_spending` returns an insufficient-data sentinel below
3 data points, otherwise fits ordinary least squares
`amount = slope * month_num + intercept`, predicts at the next index,
clamps a negative prediction to 0, and labels confidence from the sample
count and the coefficient of determination and trend from the slope.
The sklearn `LinearRegression.score` value is `1 - SSres / SStot`, which
on a constant series (`SStot = 0`, residuals 0 under the fitted line) is
`1`. -/

/-- `get_monthly_spending_data`: the chronological list of monthly expense
sums of the window. -/
def monthlySeries (today : Date) (catId : Option Nat) (monthsBack : Nat)
    (txs : List Tx) : List ℚ :=
  let rows := txs.filter (fun t => decide (t.kind = TxKind.expense) &&
    decide (inDayWindow (rataDie today - 30 * monthsBack) (rataDie today) t.date) &&
    (match catId with
     | none => true
     | some c => decide (c = 0) || decide (t.categoryId = c)))
  (groupTotals (fun t => monthKey t.date) rows).map Prod.snd

/-- Least-squares slope of `ys` against indices `0, 1, ...` (the closed
form of the fit `LinearRegression` computes; the denominator is nonzero
for two or more points). -/
def olsSlope (ys : List ℚ) : ℚ :=
  let n : ℚ := ys.length
  let xs : List ℚ := (List.range ys.length).map (fun i => (i : ℚ))
  let sx := xs.sum
  let sy := ys.sum
  let sxx := (xs.map (fun x => x ^ 2)).sum
  let sxy := ((xs.zip ys).map (fun p => p.1 * p.2)).sum
  (n * sxy - sx * sy) / (n * sxx - sx ^ 2)

/-- Least-squares intercept paired with `olsSlope`. -/
def olsIntercept (ys : List ℚ) : ℚ :=
  let n : ℚ := ys.length
  let xs : List ℚ := (List.range ys.length).map (fun i => (i : ℚ))
  (ys.sum - olsSlope ys * xs.sum) / n

/-- The coefficient of determination of the fitted line, as
`LinearRegression.score` reports it (`1` on a constant series). -/
def olsR2 (ys : List ℚ) : ℚ :=
  let fit : Nat → ℚ := fun i => olsSlope ys * i + olsIntercept ys
  let ssRes := ((List.range ys.length).zip ys |>.map
    (fun p => (p.2 - fit p.1) ^ 2)).sum
  let ssTot := (ys.map (fun y => (y - listMean ys) ^ 2)).sum
  if ssTot = 0 then 1 else 1 - ssRes / ssTot

/-- Result of `predict_next_month_spending`: the insufficient-data
sentinel dictionary, or the prediction record (the recommendation string
and the historical min/max, which no claim concerns, are not modelled). -/
inductive Prediction where
  | insufficientData
  | ok (predictedAmount : ℚ) (confidence : String) (trend : String)
      (historicalAvg : ℚ) (modelAccuracy : ℚ) (dataPoints : Nat)
deriving DecidableEq, Repr

/-- `predict_next_month_spending(db, category_id)`. -/
def predict_next_month_spending (today : Date) (catId : Option Nat)
    (txs : List Tx) : Prediction :=
  let ys := monthlySeries today catId 12 txs
  if ys.length < 3 then Prediction.insufficientData
  else
    let raw := olsSlope ys * ys.length + olsIntercept ys
    let r2 := olsR2 ys
    let confidence :=
      if 12 ≤ ys.length ∧ (7 : ℚ) / 10 ≤ r2 then "high"
      else if 6 ≤ ys.length ∧ (5 : ℚ) / 10 ≤ r2 then "medium"
      else "low"
    let trend :=
      if 10 < olsSlope ys then "increasing"
      else if olsSlope ys < -10 then "decreasing"
      else "stable"
    Prediction.ok (max 0 raw) confidence trend (listMean ys) r2 ys.length

/-! ## Budget exhaustion (backend/ml_predictions.py, predict_budget_exhaustion)

The source looks the budget up, reports a no-budget sentinel when absent
and a no-spending sentinel when the category has no expense transaction
this month.  Otherwise it computes `daily_rate = spending / days_elapsed`
(`days_elapsed >= 1` always), reports the exhausted sentinel when the
remaining budget is non-positive, and then evaluates
`int(remaining / daily_rate if daily_rate > 0 else float(inf))`: when the
daily rate is zero this is `int(float(inf))`, which raises OverflowError
in Python — modelled as the `crash` constructor.  On the finite path the
projected exhaustion day is compared against the last day of the month.
Dates in the report are carried as day counts. -/

/-- Result of `predict_budget_exhaustion`. -/
inductive ExhaustionResult where
  | noBudget
  | noSpendingYet
  | exhausted (overBy : ℚ)
  | report (budgetLimit currentSpending remainingBudget dailyRate : ℚ)
      (daysUntilExhaustion : Int) (exhaustionDay : Option Int)
      (willExceedBudget : Bool)
  | crash (exc : String)
deriving DecidableEq, Repr

/-- Day count of the last day of the month of `d` (first of the next month
minus one day). -/
def lastDayOfMonth (d : Date) : Int :=
  (if d.month = 12 then rataDie ⟨d.year + 1, 1, 1⟩ else rataDie ⟨d.year, d.month + 1, 1⟩) - 1

/-- `predict_budget_exhaustion(db, category_id)` with today, the
transactions and the budget table explicit; the budget lookup models
`get_budget_by_category_id` (first match). -/
def predict_budget_exhaustion (today : Date) (txs : List Tx)
    (budgets : List Budget) (cid : Nat) : ExhaustionResult :=
  match budgets.find? (fun b => decide (b.categoryId = cid)) with
  | none => ExhaustionResult.noBudget
  | some budget =>
    let monthTxs := (monthExpenses today txs).filter (fun t => decide (t.categoryId = cid))
    if monthTxs.isEmpty then ExhaustionResult.noSpendingYet
    else
      let currentSpending := (monthTxs.map Tx.amount).sum
      let daysElapsed : ℚ := rataDie today - rataDie (startOfMonth today) + 1
      let dailyRate := currentSpending / daysElapsed
      let remainingBudget := budget.monthlyLimit - currentSpending
      if remainingBudget ≤ 0 then ExhaustionResult.exhausted (-remainingBudget)
      else if dailyRate ≤ 0 then ExhaustionResult.crash "OverflowError"
      else
        let daysUntil : Int := ⌊remainingBudget / dailyRate⌋
        let exhaustionDay : Int := rataDie today + daysUntil
        ExhaustionResult.report budget.monthlyLimit currentSpending remainingBudget
          dailyRate daysUntil
          (if exhaustionDay ≤ lastDayOfMonth today then some exhaustionDay else none)
          (decide (exhaustionDay ≤ lastDayOfMonth today))

/-! ## Concrete scenario data used by witnesses and counterexamples -/

/-- The fixed current date of the concrete scenarios. -/
def scToday : Date := ⟨2026, 10, 12⟩

/-- Shorthand transaction constructor (empty description). -/
def mkTx (i : Nat) (d : Date) (a : ℚ) (cid : Nat) (c : String) (k : TxKind) : Tx :=
  ⟨i, d, a, cid, c, "", k⟩

/-- C3 scenario view: a Food baseline of mean 52 and sample standard
deviation 3 (amounts 55, 55, 49, 49, 52) together with the three scenario
expense transactions 50, 200, 55. -/
def sc3Txs : List Tx :=
  [mkTx 1 ⟨2026, 10, 1⟩ 55 1 "Food" TxKind.expense,
   mkTx 2 ⟨2026, 10, 2⟩ 55 1 "Food" TxKind.expense,
   mkTx 3 ⟨2026, 10, 3⟩ 49 1 "Food" TxKind.expense,
   mkTx 4 ⟨2026, 10, 4⟩ 49 1 "Food" TxKind.expense,
   mkTx 5 ⟨2026, 10, 5⟩ 52 1 "Food" TxKind.expense,
   mkTx 6 ⟨2026, 10, 6⟩ 50 1 "Food" TxKind.expense,
   mkTx 7 ⟨2026, 10, 7⟩ 200 1 "Food" TxKind.expense,
   mkTx 8 ⟨2026, 10, 8⟩ 55 1 "Food" TxKind.expense]

/-- The one transaction of the C3 scenario the detector flags. -/
def sc3Outlier : Tx := mkTx 7 ⟨2026, 10, 7⟩ 200 1 "Food" TxKind.expense

/-- C2 scenario: current-month Food expenses summing to 475. -/
def sc2Txs : List Tx := [mkTx 1 ⟨2026, 10, 5⟩ 475 1 "Food" TxKind.expense]

/-- C2 scenario: a Food budget of 500. -/
def sc2Budget : Budget := ⟨1, "Food", 500⟩

/-- C7 witness: a Food budget with limit 0. -/
def sc7Budget : Budget := ⟨1, "Food", 0⟩

/-- C1 counterexample: one expense 37 days before today, inside the most
recent (partially covered) previous calendar month but outside the 30-day
window. -/
def sc1Txs : List Tx := [mkTx 1 ⟨2026, 9, 5⟩ 10 1 "Food" TxKind.expense]

/-- C4 witness: three monthly buckets with sums 10, 20, 30. -/
def sc4Txs : List Tx :=
  [mkTx 1 ⟨2026, 8, 1⟩ 10 1 "Food" TxKind.expense,
   mkTx 2 ⟨2026, 9, 1⟩ 20 1 "Food" TxKind.expense,
   mkTx 3 ⟨2026, 10, 1⟩ 30 1 "Food" TxKind.expense]

/-- C5 failing input: one current-month expense transaction of amount 0
(amounts are constrained to be non-negative, not positive), giving a zero
daily spending rate against a positive budget. -/
def sc5Txs : List Tx := [mkTx 1 ⟨2026, 10, 5⟩ 0 1 "Food" TxKind.expense]

/-- C5 failing input: the Food budget of 10. -/
def sc5Budget : Budget := ⟨1, "Food", 10⟩

/-- C8 counterexample: a single expense transaction on a Monday. -/
def sc8Txs : List Tx := [mkTx 1 ⟨2026, 10, 12⟩ 5 1 "Food" TxKind.expense]

/-- C9 counterexample: two categories with equal totals. -/
def sc9Txs : List Tx :=
  [mkTx 1 ⟨2026, 10, 1⟩ 10 1 "A" TxKind.expense,
   mkTx 2 ⟨2026, 10, 2⟩ 10 2 "B" TxKind.expense]

/-- C10 witness: only four stored transactions, among them a category with
three expense transactions holding an extreme outlier. -/
def sc10Txs : List Tx :=
  [mkTx 1 ⟨2026, 10, 1⟩ 10 1 "Food" TxKind.expense,
   mkTx 2 ⟨2026, 10, 2⟩ 10 1 "Food" TxKind.expense,
   mkTx 3 ⟨2026, 10, 3⟩ 500 1 "Food" TxKind.expense,
   mkTx 4 ⟨2026, 10, 4⟩ 100 2 "Salary" TxKind.income]

/-! ## General list lemmas -/

theorem sum_map_filter_split {α : Type} (p : α → Bool) (v : α → ℚ) (l : List α) :
    ((l.filter p).map v).sum + ((l.filter (fun a => !(p a))).map v).sum
      = (l.map v).sum := by
  induction l with
  | nil => simp
  | cons a l ih =>
    by_cases h : p a = true <;>
      simp only [List.filter_cons, h, Bool.not_true, Bool.not_false, if_true, if_false,
        Bool.false_eq_true, Bool.true_eq_false, List.map_cons, List.sum_cons] <;>
      linarith [ih]

theorem sum_over_groups {α κ : Type} [DecidableEq κ] (key : α → κ) (v : α → ℚ) :
    ∀ ks : List κ, ks.Nodup → ∀ rows : List α, (∀ r ∈ rows, key r ∈ ks) →
      (ks.map (fun k => ((rows.filter (fun r => decide (key r = k))).map v).sum)).sum
        = (rows.map v).sum := by
  intro ks
  induction ks with
  | nil =>
    intro _ rows hcov
    have hrows : rows = [] := by
      cases rows with
      | nil => rfl
      | cons r rs => exact absurd (hcov r (by simp)) (by simp)
    simp [hrows]
  | cons k ks ih =>
    intro hnd rows hcov
    have hk : k ∉ ks := (List.nodup_cons.1 hnd).1
    have hnd' : ks.Nodup := (List.nodup_cons.1 hnd).2
    have hsplit := sum_map_filter_split (fun r => decide (key r = k)) v rows
    have hcong : ∀ k' ∈ ks,
        (rows.filter (fun r => !(decide (key r = k)))).filter
            (fun r => decide (key r = k'))
          = rows.filter (fun r => decide (key r = k')) := by
      intro k' hk'
      rw [List.filter_filter]
      apply List.filter_congr
      intro r _
      by_cases h : key r = k'
      · have hkk : ¬ k' = k := fun e => hk (e ▸ hk')
        simp [h, hkk]
      · simp [h]
    have htail :
        (ks.map (fun k' => (((rows.filter (fun r => !(decide (key r = k)))).filter
            (fun r => decide (key r = k'))).map v).sum)).sum
          = (ks.map (fun k' =>
              ((rows.filter (fun r => decide (key r = k'))).map v).sum)).sum := by
      refine congrArg List.sum (List.map_congr_left ?_)
      intro k' hk'
      rw [hcong k' hk']
    have hcov' : ∀ r ∈ rows.filter (fun r => !(decide (key r = k))), key r ∈ ks := by
      intro r hr
      have hmem := (List.mem_filter.1 hr).1
      have hne : ¬ key r = k := by simpa using (List.mem_filter.1 hr).2
      have hin := hcov r hmem
      simp only [List.mem_cons] at hin
      exact hin.resolve_left hne
    calc (((k :: ks)).map (fun k' =>
            ((rows.filter (fun r => decide (key r = k'))).map v).sum)).sum
        = ((rows.filter (fun r => decide (key r = k))).map v).sum
            + (ks.map (fun k' =>
                ((rows.filter (fun r => decide (key r = k'))).map v).sum)).sum := by
          simp
      _ = ((rows.filter (fun r => decide (key r = k))).map v).sum
            + (ks.map (fun k' => (((rows.filter (fun r => !(decide (key r = k)))).filter
                (fun r => decide (key r = k'))).map v).sum)).sum := by rw [htail]
      _ = ((rows.filter (fun r => decide (key r = k))).map v).sum
            + ((rows.filter (fun r => !(decide (key r = k)))).map v).sum := by
          rw [ih hnd' _ hcov']
      _ = (rows.map v).sum := hsplit

theorem groupTotals_map_snd_sum {κ : Type} [LinearOrder κ] [DecidableEq κ]
    (key : Tx → κ) (rows : List Tx) :
    ((groupTotals key rows).map Prod.snd).sum = (rows.map Tx.amount).sum := by
  unfold groupTotals
  rw [List.map_map]
  exact sum_over_groups key Tx.amount _
    (((List.perm_insertionSort _ _).nodup_iff).2 (List.nodup_dedup _)) rows
    (fun r hr => (List.mem_insertionSort _).2
      (List.mem_dedup.2 (List.mem_map_of_mem key hr)))

/-! ## Budget alert lemmas -/

theorem alertOf_map_level (today : Date) (txs : List Tx) (b : Budget) :
    (alertOf today txs b).map Alert.alertLevel = levelOf (pctOf today txs b) := by
  unfold alertOf
  cases levelOf (pctOf today txs b) <;> simp

theorem levelOf_some_ge (p : ℚ) (lv : String) (h : levelOf p = some lv) : 75 ≤ p := by
  unfold levelOf at h
  split_ifs at h with h1 h2 h3 <;> linarith

theorem levelOf_zero : levelOf 0 = none := by
  unfold levelOf
  norm_num

theorem monthSpend_of_no_monthExpenses (today : Date) (txs : List Tx)
    (h : monthExpenses today txs = []) (cid : Nat) : monthSpend today txs cid = 0 := by
  unfold monthSpend
  rw [h]
  simp

theorem pctOf_of_no_monthExpenses (today : Date) (txs : List Tx)
    (h : monthExpenses today txs = []) (b : Budget) : pctOf today txs b = 0 := by
  unfold pctOf
  rw [monthSpend_of_no_monthExpenses today txs h]
  split_ifs <;> norm_num

theorem alertOf_eq_some_imp (today : Date) (txs : List Tx) (b : Budget) (a : Alert)
    (h : alertOf today txs b = some a) :
    a.budget = b.monthlyLimit ∧ 75 ≤ pctOf today txs b := by
  unfold alertOf at h
  cases hlev : levelOf (pctOf today txs b) with
  | none => rw [hlev] at h; simp at h
  | some lv =>
    rw [hlev] at h
    simp only [Option.map_some', Option.some.injEq] at h
    exact ⟨by rw [← h], levelOf_some_ge _ _ hlev⟩

theorem mem_get_budget_alerts_iff (today : Date) (txs : List Tx)
    (budgets : List Budget) (a : Alert) :
    a ∈ get_budget_alerts today txs budgets
      ↔ ∃ b ∈ budgets, alertOf today txs b = some a := by
  unfold get_budget_alerts
  by_cases h : (monthExpenses today txs).isEmpty
  · have hnil : monthExpenses today txs = [] := List.isEmpty_iff.1 h
    simp only [h, if_true, List.not_mem_nil, false_iff, not_exists]
    intro b hb
    have := (alertOf_eq_some_imp today txs b a hb.2).2
    rw [pctOf_of_no_monthExpenses today txs hnil b] at this
    linarith
  · simp only [h, Bool.false_eq_true, if_false]
    rw [(List.perm_insertionSort alertGe _).mem_iff, List.mem_filterMap]

/-! ## Claim C10 -/

/-- C10: the unusual-spending detector returns an empty list whenever the
total number of stored transactions (income and expense rows together) is
fewer than 5, regardless of the threshold and of any outlier inside a
category. -/
theorem claim_C10_guard_under_five (txs : List Tx) (thr : ℚ)
    (h : txs.length < 5) : get_unusual_spending txs thr = [] := by
  simp [get_unusual_spending, if_pos h]

/-- C10 witness: four stored transactions, three of them Food expenses with
an extreme outlier among them, still produce no flags. -/
theorem claim_C10_guard_under_five_witness :
    sc10Txs.length < 5 ∧ get_unusual_spending sc10Txs 2 = [] :=
  ⟨by decide, claim_C10_guard_under_five sc10Txs 2 (by decide)⟩

/-! ## Claim C5 -/

/-- C5: exhibit of the division-guard failure.  With an admissible ledger
state — a Food budget of 10 and one current-month expense transaction of
amount 0 (amounts are constrained non-negative, not positive) — the daily
spending rate is zero while the remaining budget is positive, and
`predict_budget_exhaustion` evaluates `int(float(inf))`, which raises
OverflowError in Python instead of short-circuiting the zero divisor to a
safe default or an undefined marker. -/
theorem claim_C5_exhaustion_crash :
    predict_budget_exhaustion scToday sc5Txs [sc5Budget] 1
      = ExhaustionResult.crash "OverflowError" := by
  norm_num [predict_budget_exhaustion, sc5Txs, sc5Budget, mkTx, monthExpenses,
    startOfMonth, scToday, inDayWindow, rataDie, List.find?]

/-! ## Claim C1 -/

/-- C1 counterexample: with today 2026-10-12 and N = 1, a single expense
dated 2026-09-05 lies in the most recent populated calendar-month bucket
but outside the fixed 30-day window; the aggregator returns the empty
series while the calendar-bucket policy of the claim returns the 2026-09
bucket, so the aggregator does not select the most recent N buckets. -/
theorem claim_C1_counterexample :
    get_monthly_spending_trend scToday 1 sc1Txs = []
      ∧ lastNMonthBuckets 1 sc1Txs = [("2026-09", (10 : ℚ))]
      ∧ get_monthly_spending_trend scToday 1 sc1Txs ≠ lastNMonthBuckets 1 sc1Txs := by
  have h1 : get_monthly_spending_trend scToday 1 sc1Txs = [] := by decide
  have h2 : lastNMonthBuckets 1 sc1Txs = [("2026-09", (10 : ℚ))] := by
    norm_num [lastNMonthBuckets, sc1Txs, mkTx, expenseRows, groupTotals, monthKey,
      monthStrOfKey, List.insertionSort, List.orderedInsert]
    decide
  refine ⟨h1, h2, ?_⟩
  rw [h1, h2]
  simp

/-- C1 amended: for every request of the monthly spending trend for the
last N months, the aggregator selects the transactions inside the fixed
N×30-day rolling date window ending today, applied before grouping, and
returns the calendar-month totals of the expense transactions among them
(not the most recent N buckets of the full grouped series). -/
theorem claim_C1_amended_window_policy (today : Date) (months : Nat)
    (txs : List Tx) :
    get_monthly_spending_trend today months txs
      = windowedMonthlyPolicy today months txs := by
  unfold get_monthly_spending_trend windowedMonthlyPolicy
  rw [← List.filter_filter]
  by_cases h : (txs.filter (fun t =>
      decide (inDayWindow (rataDie today - 30 * months) (rataDie today) t.date))).isEmpty
  · have he : txs.filter (fun t =>
        decide (inDayWindow (rataDie today - 30 * months) (rataDie today) t.date)) = [] :=
      List.isEmpty_iff.1 h
    simp [he, expenseRows, groupTotals]
  · simp [h, expenseRows]

/-! ## Claim C6 -/

/-- C6: when the aggregation window covers the whole view, the monthly
totals of the spending trend sum to exactly the total amount of the expense
rows of the view. -/
theorem claim_C6_totals_preserve_sum (today : Date) (months : Nat) (txs : List Tx)
    (hcov : ∀ t ∈ txs,
      inDayWindow (rataDie today - 30 * months) (rataDie today) t.date) :
    ((get_monthly_spending_trend today months txs).map Prod.snd).sum
      = ((expenseRows txs).map Tx.amount).sum := by
  unfold get_monthly_spending_trend
  have hfix : txs.filter (fun t =>
      decide (inDayWindow (rataDie today - 30 * months) (rataDie today) t.date)) = txs :=
    List.filter_eq_self.2 (fun t ht => by simpa using hcov t ht)
  rw [hfix]
  by_cases h : txs.isEmpty
  · have he : txs = [] := List.isEmpty_iff.1 h
    simp [he, expenseRows]
  · simp only [h, Bool.false_eq_true, if_false]
    rw [List.map_map]
    have hsnd : (Prod.snd ∘ fun p : Int × ℚ => (monthStrOfKey p.1, p.2)) = Prod.snd := rfl
    rw [hsnd]
    exact groupTotals_map_snd_sum _ _

/-- C6 witness: on the eight-transaction Food view, wholly inside the
6-month window of 2026-10-12, the monthly totals sum to the full expense
total. -/
theorem claim_C6_totals_preserve_sum_witness :
    (∀ t ∈ sc3Txs,
      inDayWindow (rataDie scToday - 30 * ((6 : Nat) : Int)) (rataDie scToday) t.date)
    ∧ ((get_monthly_spending_trend scToday 6 sc3Txs).map Prod.snd).sum
        = ((expenseRows sc3Txs).map Tx.amount).sum :=
  ⟨by decide, claim_C6_totals_preserve_sum scToday 6 sc3Txs (by decide)⟩

/-! ## Claim C4 -/

/-- C4: a next-month prediction from fewer than 3 monthly data points is
the structured insufficient-data sentinel (a value, not an exception), and
every successful prediction carries a non-negative predicted amount
(negative fitted values are clamped to 0). -/
theorem claim_C4_insufficient_and_clamp (today : Date) (catId : Option Nat)
    (txs : List Tx) :
    ((monthlySeries today catId 12 txs).length < 3 →
        predict_next_month_spending today catId txs = Prediction.insufficientData)
    ∧ ∀ p c tr h m n, predict_next_month_spending today catId txs
        = Prediction.ok p c tr h m n → 0 ≤ p := by
  constructor
  · intro h
    simp [predict_next_month_spending, if_pos h]
  · intro p c tr h m n he
    by_cases hlen : (monthlySeries today catId 12 txs).length < 3
    · simp [predict_next_month_spending, if_pos hlen] at he
    · simp only [predict_next_month_spending, if_neg hlen, Prediction.ok.injEq] at he
      rw [← he.1]
      exact le_max_left 0 _

/-- C4 witness: an empty ledger yields the sentinel, and a concrete
three-month series (10, 20, 30) yields the prediction 40, which the claim
theorem bounds below by 0. -/
theorem claim_C4_insufficient_and_clamp_witness :
    predict_next_month_spending scToday none [] = Prediction.insufficientData
    ∧ (0 : ℚ) ≤ 40 := by
  have hser : monthlySeries scToday none 12 sc4Txs = [10, 20, 30] := by
    simp +decide [monthlySeries, sc4Txs, mkTx, groupTotals, List.insertionSort,
      List.orderedInsert]
  have hok : predict_next_month_spending scToday none sc4Txs
      = Prediction.ok 40 "low" "stable" 20 1 3 := by
    have hrange : List.range 3 = [0, 1, 2] := by decide
    simp only [predict_next_month_spending, hser]
    norm_num [olsSlope, olsIntercept, olsR2, listMean, hrange, List.zip,
      List.zipWith]
  exact ⟨(claim_C4_insufficient_and_clamp scToday none []).1 (by decide),
    (claim_C4_insufficient_and_clamp scToday none sc4Txs).2 40 "low" "stable" 20 1 3 hok⟩

/-! ## Claim C2 -/

/-- C2: every budget's percentage is its current-calendar-month expense
spend over its limit times 100 (for a positive limit), the levels classify
at the 100 / 90 / 75 thresholds with no alert below 75, an alert is in the
output exactly when some budget produces it, and the 475-of-500 scenario
yields percentage 95 and level warning. -/
theorem claim_C2_budget_alert_classification (today : Date) (txs : List Tx)
    (budgets : List Budget) :
    (∀ b ∈ budgets, 0 < b.monthlyLimit →
      pctOf today txs b = monthSpend today txs b.categoryId / b.monthlyLimit * 100)
    ∧ (∀ b ∈ budgets,
        (100 ≤ pctOf today txs b →
          (alertOf today txs b).map Alert.alertLevel = some "critical")
        ∧ (90 ≤ pctOf today txs b ∧ pctOf today txs b < 100 →
          (alertOf today txs b).map Alert.alertLevel = some "warning")
        ∧ (75 ≤ pctOf today txs b ∧ pctOf today txs b < 90 →
          (alertOf today txs b).map Alert.alertLevel = some "info")
        ∧ (pctOf today txs b < 75 → alertOf today txs b = none))
    ∧ (∀ a, a ∈ get_budget_alerts today txs budgets ↔
        ∃ b ∈ budgets, alertOf today txs b = some a)
    ∧ pctOf scToday sc2Txs sc2Budget = 95
    ∧ get_budget_alerts scToday sc2Txs [sc2Budget]
        = [⟨"Food", 500, 475, 25, 95, "warning"⟩] := by
  have hme : monthExpenses scToday sc2Txs = sc2Txs := by
    simp +decide [monthExpenses, sc2Txs, mkTx]
  have hsp : monthSpend scToday sc2Txs 1 = 475 := by
    unfold monthSpend
    rw [hme]
    simp +decide [sc2Txs, mkTx]
  have hpct : pctOf scToday sc2Txs sc2Budget = 95 := by
    unfold pctOf
    rw [show sc2Budget.categoryId = 1 from rfl, hsp]
    norm_num [sc2Budget]
  have halert : alertOf scToday sc2Txs sc2Budget
      = some ⟨"Food", 500, 475, 25, 95, "warning"⟩ := by
    unfold alertOf levelOf
    rw [hpct]
    norm_num
    constructor
    · rfl
    · rw [show sc2Budget.categoryId = 1 from rfl, hsp]
      constructor <;> norm_num [sc2Budget]
  refine ⟨?_, ?_, fun a => mem_get_budget_alerts_iff today txs budgets a, hpct, ?_⟩
  · intro b _ hpos
    unfold pctOf
    rw [if_pos hpos]
  · intro b _
    refine ⟨?_, ?_, ?_, ?_⟩
    · intro h
      rw [alertOf_map_level]
      unfold levelOf
      rw [if_pos h]
    · rintro ⟨h1, h2⟩
      rw [alertOf_map_level]
      unfold levelOf
      rw [if_neg (by linarith), if_pos h1]
    · rintro ⟨h1, h2⟩
      rw [alertOf_map_level]
      unfold levelOf
      rw [if_neg (by linarith), if_neg (by linarith), if_pos h1]
    · intro h
      have hnone : levelOf (pctOf today txs b) = none := by
        unfold levelOf
        rw [if_neg (by linarith), if_neg (by linarith), if_neg (by linarith)]
      unfold alertOf
      rw [hnone]
      rfl
  · unfold get_budget_alerts
    rw [hme]
    rw [if_neg (by simp [sc2Txs])]
    simp [List.filterMap, halert, List.insertionSort, List.orderedInsert]

/-- C2 witness: in the 475-of-500 scenario the warning alert is a member of
the produced alert list, and the classification at 90 ≤ 95 < 100 gives
level warning. -/
theorem claim_C2_budget_alert_classification_witness :
    (⟨"Food", 500, 475, 25, 95, "warning"⟩ : Alert)
        ∈ get_budget_alerts scToday sc2Txs [sc2Budget]
    ∧ (alertOf scToday sc2Txs sc2Budget).map Alert.alertLevel = some "warning" := by
  have h := claim_C2_budget_alert_classification scToday sc2Txs [sc2Budget]
  constructor
  · rw [h.2.2.2.2]
    exact List.mem_singleton.2 rfl
  · exact (h.2.1 sc2Budget (List.mem_singleton.2 rfl)).2.1
      (by rw [h.2.2.2.1]; norm_num)

/-! ## Claim C7 -/

/-- C7: a budget with monthly limit 0 always has percentage 0, produces no
alert, and no alert of the returned list carries a zero budget limit (so
such a budget never appears in the output); the computation is total, so
nothing is raised. -/
theorem claim_C7_zero_limit_budget (today : Date) (txs : List Tx)
    (budgets : List Budget) :
    (∀ b ∈ budgets, b.monthlyLimit = 0 →
      pctOf today txs b = 0 ∧ alertOf today txs b = none)
    ∧ ∀ a ∈ get_budget_alerts today txs budgets, a.budget ≠ 0 := by
  have hzero : ∀ b : Budget, b.monthlyLimit = 0 → pctOf today txs b = 0 := by
    intro b h0
    unfold pctOf
    rw [h0]
    norm_num
  constructor
  · intro b _ h0
    have hp := hzero b h0
    have hnone : levelOf (pctOf today txs b) = none := by
      rw [hp]
      exact levelOf_zero
    exact ⟨hp, by unfold alertOf; rw [hnone]; rfl⟩
  · intro a ha h0
    obtain ⟨b, _, hsome⟩ := (mem_get_budget_alerts_iff today txs budgets a).1 ha
    obtain ⟨hbud, hge⟩ := alertOf_eq_some_imp today txs b a hsome
    have hb0 : b.monthlyLimit = 0 := by rw [← hbud, h0]
    rw [hzero b hb0] at hge
    linarith

/-- C7 witness: a zero-limit Food budget against 475 of current-month Food
spending yields percentage 0 and no alert. -/
theorem claim_C7_zero_limit_budget_witness :
    pctOf scToday sc2Txs sc7Budget = 0 ∧ alertOf scToday sc2Txs sc7Budget = none :=
  (claim_C7_zero_limit_budget scToday sc2Txs [sc7Budget]).1 sc7Budget
    (List.mem_singleton.2 rfl) rfl

/-! ## Claim C8 -/

/-- C8 counterexample: a view with a single Monday expense produces a
day-of-week mapping with exactly one key, not 7; weekdays without expense
transactions are absent rather than mapped to 0. -/
theorem claim_C8_counterexample :
    spendingPatternsByDay sc8Txs = some [("Monday", (5 : ℚ))]
    ∧ Option.map List.length (spendingPatternsByDay sc8Txs) = some 1
    ∧ (1 : Nat) ≠ 7 := by
  have h : spendingPatternsByDay sc8Txs = some [("Monday", (5 : ℚ))] := by
    simp +decide [spendingPatternsByDay, sc8Txs, mkTx, expenseRows, groupTotals,
      List.insertionSort, List.orderedInsert]
  exact ⟨h, by rw [h]; rfl, by decide⟩

/-- C8 amended: when the pattern computation succeeds (non-empty view with
at least one expense row), the day-of-week mapping holds one key per
weekday on which at least one expense transaction occurred — weekdays with
no expense transactions are absent, not mapped to 0 — and each present key
maps to the total expense amount of that weekday. -/
theorem claim_C8_amended_present_days_only (txs : List Tx) (m : List (String × ℚ))
    (h : spendingPatternsByDay txs = some m) :
    (∀ d : String, (∃ v, (d, v) ∈ m) ↔ ∃ t ∈ expenseRows txs, dayName t.date = d)
    ∧ ∀ p ∈ m, p.2 = (((expenseRows txs).filter
        (fun t => decide (dayName t.date = p.1))).map Tx.amount).sum := by
  unfold spendingPatternsByDay at h
  by_cases h1 : txs.isEmpty
  · rw [if_pos h1] at h
    exact absurd h (by simp)
  · rw [if_neg h1] at h
    by_cases h2 : (expenseRows txs).isEmpty
    · rw [if_pos h2] at h
      exact absurd h (by simp)
    · rw [if_neg h2] at h
      have hm : m = groupTotals (fun t => dayName t.date) (expenseRows txs) := by
        simpa using h.symm
      subst hm
      constructor
      · intro d
        constructor
        · rintro ⟨v, hv⟩
          unfold groupTotals at hv
          obtain ⟨k, hk, hkv⟩ := List.mem_map.1 hv
          have hkd : k = d := congrArg Prod.fst hkv
          subst hkd
          have hk2 : k ∈ ((expenseRows txs).map (fun t => dayName t.date)).dedup :=
            (List.mem_insertionSort _).1 hk
          obtain ⟨t, ht, hdt⟩ := List.mem_map.1 (List.mem_dedup.1 hk2)
          exact ⟨t, ht, hdt⟩
        · rintro ⟨t, ht, rfl⟩
          unfold groupTotals
          exact ⟨_, List.mem_map_of_mem _
            ((List.mem_insertionSort _).2
              (List.mem_dedup.2 (List.mem_map_of_mem _ ht)))⟩
      · intro p hp
        unfold groupTotals at hp
        obtain ⟨k, hk, hkv⟩ := List.mem_map.1 hp
        rw [← hkv]

/-- C8 amended witness: on the single-Monday view, Monday is a key of the
mapping and Tuesday is not. -/
theorem claim_C8_amended_present_days_only_witness :
    (∃ v, (("Monday" : String), v) ∈ [(("Monday" : String), (5 : ℚ))])
    ∧ ∀ v, (("Tuesday" : String), v) ∉ [(("Monday" : String), (5 : ℚ))] := by
  have heval : spendingPatternsByDay sc8Txs = some [("Monday", (5 : ℚ))] := by
    simp +decide [spendingPatternsByDay, sc8Txs, mkTx, expenseRows, groupTotals,
      List.insertionSort, List.orderedInsert]
  have h := claim_C8_amended_present_days_only sc8Txs _ heval
  constructor
  · exact (h.1 "Monday").2
      ⟨mkTx 1 ⟨2026, 10, 12⟩ 5 1 "Food" TxKind.expense, by decide, by decide⟩
  · intro v hv
    obtain ⟨t, ht, hd⟩ := (h.1 "Tuesday").1 ⟨v, hv⟩
    have ht' := ht
    simp only [expenseRows, sc8Txs, List.filter_cons, List.filter_nil] at ht'
    have : t = mkTx 1 ⟨2026, 10, 12⟩ 5 1 "Food" TxKind.expense :=
      (by simpa using ht' :
        (mkTx 1 ⟨2026, 10, 12⟩ 5 1 "Food" TxKind.expense).kind = TxKind.expense
          ∧ t = mkTx 1 ⟨2026, 10, 12⟩ 5 1 "Food" TxKind.expense).2
    rw [this] at hd
    exact absurd hd (by decide)

/-! ## Claim C9 -/

theorem sortedDescTotals (ps : List (String × ℚ)) (limit : Nat) :
    List.Pairwise (fun a b : String × ℚ => b.2 ≤ a.2)
      (((List.insertionSort amtNameLe ps).reverse).take limit) := by
  have hrev : List.Pairwise (fun a b => amtNameLe b a)
      (List.insertionSort amtNameLe ps).reverse :=
    List.pairwise_reverse.2 (List.sorted_insertionSort amtNameLe ps)
  refine List.Pairwise.sublist (List.take_sublist _ _) (hrev.imp ?_)
  rintro a b (h | ⟨heq, -⟩)
  · exact le_of_lt h
  · exact le_of_eq heq

/-- C9 amended: the top-spending-categories output is sorted descending by
total amount; two entries of equal total are not ordered by category name
ascending (the counterexample exhibits the opposite order on a small
input), and the program leaves the relative order of equal totals to an
unstable sort, so only the non-increasing order of the totals is
guaranteed.  This property does not depend on the tie order the embedding
fixes: it holds of every correct descending sort of the grouped totals. -/
theorem claim_C9_amended_desc_totals (limit : Nat)
    (s e : Option Date) (txs : List Tx) :
    List.Pairwise (fun a b : String × ℚ => b.2 ≤ a.2)
      (get_top_spending_categories limit s e txs) := by
  have key : ∀ rows : List Tx,
      List.Pairwise (fun a b : String × ℚ => b.2 ≤ a.2)
        (if rows.isEmpty = true then []
         else ((List.insertionSort amtNameLe
            (groupTotals (fun t => t.category) (expenseRows rows))).reverse).take limit) := by
    intro rows
    by_cases h : rows.isEmpty = true
    · rw [if_pos h]
      exact List.Pairwise.nil
    · rw [if_neg h]
      exact sortedDescTotals _ limit
  exact key _

/-- C9 counterexample: two categories A and B with equal totals 10 come out
in the order B, A — not the ascending tie order the claim states.  The
two-element array is inside the numpy insertion-sort regime, where the
argsort is stable and the embedding agrees with the program exactly. -/
theorem claim_C9_counterexample :
    get_top_spending_categories 5 none none sc9Txs = [("B", (10 : ℚ)), ("A", 10)]
    ∧ ("A" : String) < "B"
    ∧ get_top_spending_categories 5 none none sc9Txs ≠ [("A", (10 : ℚ)), ("B", 10)] := by
  have hle : ("A" : String) ≤ "B" := by
    rw [String.le_iff_toList_le]
    decide
  have hAB : amtNameLe ("A", (10 : ℚ)) ("B", (10 : ℚ)) := Or.inr ⟨rfl, hle⟩
  have h : get_top_spending_categories 5 none none sc9Txs
      = [("B", (10 : ℚ)), ("A", 10)] := by
    unfold get_top_spending_categories
    simp +decide [sc9Txs, mkTx, expenseRows, groupTotals, List.insertionSort,
      List.orderedInsert, hle, hAB]
  refine ⟨h, by rw [String.lt_iff_toList_lt]; decide, ?_⟩
  rw [h]
  decide

/-! ## Claim C3 -/

theorem list_sq_sum_le (l : List ℚ) :
    l.sum ^ 2 ≤ (l.length : ℚ) * (l.map (fun x => x ^ 2)).sum := by
  induction l with
  | nil => simp
  | cons a l ih =>
    have hq : (0:ℚ) ≤ (l.map (fun x => x ^ 2)).sum :=
      List.sum_nonneg (fun x hx => by
        obtain ⟨y, -, rfl⟩ := List.mem_map.1 hx
        positivity)
    have hn : (0:ℚ) ≤ (l.length : ℚ) := by positivity
    simp only [List.sum_cons, List.map_cons, List.length_cons]
    push_cast
    rcases eq_or_lt_of_le hn with h0 | h0
    · have hl : l.length = 0 := by exact_mod_cast h0.symm
      have hl' : l = [] := List.length_eq_zero.1 hl
      subst hl'
      simp
    · have key : 0 ≤ ((l.length : ℚ) * a ^ 2
          + (l.length : ℚ) * (l.map (fun x => x ^ 2)).sum
          + (l.map (fun x => x ^ 2)).sum - 2 * a * l.sum - l.sum ^ 2)
          * (l.length : ℚ) := by
        nlinarith [ih, sq_nonneg ((l.length : ℚ) * a - l.sum),
          mul_le_mul_of_nonneg_left ih hn, hq]
      nlinarith [key, h0]

theorem map_sub_sum (L : List ℚ) (c : ℚ) :
    (L.map (fun y => y - c)).sum = L.sum - L.length * c := by
  induction L with
  | nil => simp
  | cons a L ih =>
    simp only [List.map_cons, List.sum_cons, List.length_cons, ih]
    push_cast
    ring

theorem dev_sq_bound (l : List ℚ) (x : ℚ) (hx : x ∈ l) :
    (l.length : ℚ) * (x - listMean l) ^ 2
      ≤ ((l.length : ℚ) - 1) * ((l.map (fun y => (y - listMean l) ^ 2)).sum) := by
  obtain ⟨s, t, rfl⟩ := List.append_of_mem hx
  set μ := listMean (s ++ x :: t) with hμ
  have hnn : ((s ++ x :: t).length : ℚ) ≠ 0 := by
    have : 0 < (s ++ x :: t).length := by simp
    positivity
  have hsum0 : ((s ++ x :: t).map (fun y => y - μ)).sum = 0 := by
    rw [map_sub_sum, hμ]
    unfold listMean
    field_simp
  have hA : (s.map (fun y => y - μ)).sum + (t.map (fun y => y - μ)).sum = -(x - μ) := by
    have h1 : ((s ++ x :: t).map (fun y => y - μ)).sum
        = (s.map (fun y => y - μ)).sum + ((x - μ) + (t.map (fun y => y - μ)).sum) := by
      simp [List.map_append, List.sum_append]
    rw [h1] at hsum0
    linarith
  have hcs := list_sq_sum_le ((s ++ t).map (fun y => y - μ))
  rw [List.map_append, List.sum_append, List.map_append, List.map_map, List.map_map,
    List.sum_append, List.length_append, List.length_map, List.length_map] at hcs
  rw [hA] at hcs
  have hS : ((s ++ x :: t).map (fun y => (y - μ) ^ 2)).sum
      = (s.map (fun y => (y - μ) ^ 2)).sum + ((x - μ) ^ 2
          + (t.map (fun y => (y - μ) ^ 2)).sum) := by
    simp [List.map_append, List.sum_append]
  have hlen : ((s ++ x :: t).length : ℚ) = (s.length : ℚ) + (t.length : ℚ) + 1 := by
    simp [List.length_append]
    ring
  rw [hS, hlen]
  have hcomp1 : (s.map ((fun z => z ^ 2) ∘ fun y => y - μ)).sum
      = (s.map (fun y => (y - μ) ^ 2)).sum := rfl
  have hcomp2 : (t.map ((fun z => z ^ 2) ∘ fun y => y - μ)).sum
      = (t.map (fun y => (y - μ) ^ 2)).sum := rfl
  rw [hcomp1, hcomp2] at hcs
  push_cast at hcs
  nlinarith [hcs]

theorem no_flag_of_small_cat (txs : List Tx) (t : Tx) (h5 : txs.length < 5)
    (ht : t ∈ expenseRows txs) : ¬ zFlag txs 2 t := by
  rintro ⟨h2, hvar, hgt⟩
  have hmem : t.amount ∈ catAmounts txs t.category := by
    unfold catAmounts
    exact List.mem_map_of_mem _ (List.mem_filter.2 ⟨ht, by simp⟩)
  have hlen4 : (catAmounts txs t.category).length ≤ 4 := by
    have h1 : (catAmounts txs t.category).length ≤ (expenseRows txs).length := by
      unfold catAmounts
      rw [List.length_map]
      exact List.length_filter_le _ _
    have h2' : (expenseRows txs).length ≤ txs.length := List.length_filter_le _ _
    omega
  set l := catAmounts txs t.category with hl
  set S := (l.map (fun y => (y - listMean l) ^ 2)).sum with hSdef
  set D := (t.amount - listMean l) ^ 2 with hDdef
  have hn2 : (2:ℚ) ≤ (l.length : ℚ) := by exact_mod_cast h2
  have hn4 : ((l.length : ℚ)) ≤ 4 := by exact_mod_cast hlen4
  have hd : (0:ℚ) < (l.length : ℚ) - 1 := by linarith
  have hvar' : sampleVar l = S / ((l.length : ℚ) - 1) := rfl
  rw [hvar'] at hvar hgt
  have hSpos : 0 < S := by
    rcases div_pos_iff.1 hvar with ⟨h, -⟩ | ⟨-, hneg⟩
    · exact h
    · linarith
  have h4S : 4 * S < ((l.length : ℚ) - 1) * D := by
    have he : (2:ℚ) ^ 2 * (S / ((l.length : ℚ) - 1)) = (4 * S) / ((l.length : ℚ) - 1) := by
      ring
    rw [he] at hgt
    calc 4 * S = ((4 * S) / ((l.length : ℚ) - 1)) * ((l.length : ℚ) - 1) := by
          field_simp
      _ < D * ((l.length : ℚ) - 1) := by
          exact mul_lt_mul_of_pos_right hgt hd
      _ = ((l.length : ℚ) - 1) * D := by ring
  have hbound := dev_sq_bound l t.amount hmem
  rw [← hSdef, ← hDdef] at hbound
  have hq : (0:ℚ) ≤ ((l.length : ℚ) - 2) * (4 - (l.length : ℚ)) :=
    mul_nonneg (by linarith) (by linarith)
  have h7 : 0 ≤ 4 * (l.length : ℚ) - ((l.length : ℚ) - 1) ^ 2 := by nlinarith [hq]
  have p1 := mul_le_mul_of_nonneg_left hbound (show (0:ℚ) ≤ (l.length : ℚ) - 1 by linarith)
  have p2 := mul_lt_mul_of_pos_left h4S (show (0:ℚ) < (l.length : ℚ) by linarith)
  have p3 := mul_nonneg (le_of_lt hSpos) h7
  nlinarith [p1, p2, p3]

/-- C3: with the default threshold 2.0, the detector flags exactly the
expense transactions whose squared deviation from their category mean
exceeds the squared threshold times the category sample variance
(equivalently, whose absolute z-score exceeds 2), skipping categories with
fewer than 2 expense transactions or zero variance; the under-5 guard never
changes this because with at most 4 samples no z-score can exceed 2.  In
the scenario built on a Food baseline of mean 52 and stddev 3, the 200
transaction is flagged and the 50 and 55 transactions are not. -/
theorem claim_C3_zscore_flags_exactly :
    (∀ txs : List Tx, get_unusual_spending txs 2
        = (expenseRows txs).filter (fun t => decide (zFlag txs 2 t)))
    ∧ get_unusual_spending sc3Txs 2 = [sc3Outlier] := by
  have hgen : ∀ txs : List Tx, get_unusual_spending txs 2
      = (expenseRows txs).filter (fun t => decide (zFlag txs 2 t)) := by
    intro txs
    unfold get_unusual_spending
    by_cases h : txs.length < 5
    · rw [if_pos h]
      symm
      rw [List.filter_eq_nil_iff]
      intro t ht
      simp only [decide_eq_true_eq]
      exact no_flag_of_small_cat txs t h ht
    · rw [if_neg h]
  refine ⟨hgen, ?_⟩
  have hexp : expenseRows sc3Txs = sc3Txs := by decide
  have hcat : catAmounts sc3Txs "Food"
      = [55, 55, 49, 49, 52, 50, 200, 55] := by decide
  have hz : ∀ (i : Nat) (d : Date) (a : ℚ),
      zFlag sc3Txs 2 (mkTx i d a 1 "Food" TxKind.expense)
        ↔ (153423 : ℚ) / 14 < (a - 565 / 8) ^ 2 := by
    intro i d a
    unfold zFlag
    simp only [mkTx]
    rw [hcat]
    norm_num [sampleVar, listMean]
  have h1 : ¬ zFlag sc3Txs 2 (mkTx 1 ⟨2026, 10, 1⟩ 55 1 "Food" TxKind.expense) := by
    rw [hz]; norm_num
  have h2 : ¬ zFlag sc3Txs 2 (mkTx 2 ⟨2026, 10, 2⟩ 55 1 "Food" TxKind.expense) := by
    rw [hz]; norm_num
  have h3 : ¬ zFlag sc3Txs 2 (mkTx 3 ⟨2026, 10, 3⟩ 49 1 "Food" TxKind.expense) := by
    rw [hz]; norm_num
  have h4 : ¬ zFlag sc3Txs 2 (mkTx 4 ⟨2026, 10, 4⟩ 49 1 "Food" TxKind.expense) := by
    rw [hz]; norm_num
  have h5 : ¬ zFlag sc3Txs 2 (mkTx 5 ⟨2026, 10, 5⟩ 52 1 "Food" TxKind.expense) := by
    rw [hz]; norm_num
  have h6 : ¬ zFlag sc3Txs 2 (mkTx 6 ⟨2026, 10, 6⟩ 50 1 "Food" TxKind.expense) := by
    rw [hz]; norm_num
  have h7 : zFlag sc3Txs 2 (mkTx 7 ⟨2026, 10, 7⟩ 200 1 "Food" TxKind.expense) := by
    rw [hz]; norm_num
  have h8 : ¬ zFlag sc3Txs 2 (mkTx 8 ⟨2026, 10, 8⟩ 55 1 "Food" TxKind.expense) := by
    rw [hz]; norm_num
  rw [hgen, hexp]
  show List.filter (fun t => decide (zFlag sc3Txs 2 t))
      [mkTx 1 ⟨2026, 10, 1⟩ 55 1 "Food" TxKind.expense,
       mkTx 2 ⟨2026, 10, 2⟩ 55 1 "Food" TxKind.expense,
       mkTx 3 ⟨2026, 10, 3⟩ 49 1 "Food" TxKind.expense,
       mkTx 4 ⟨2026, 10, 4⟩ 49 1 "Food" TxKind.expense,
       mkTx 5 ⟨2026, 10, 5⟩ 52 1 "Food" TxKind.expense,
       mkTx 6 ⟨2026, 10, 6⟩ 50 1 "Food" TxKind.expense,
       mkTx 7 ⟨2026, 10, 7⟩ 200 1 "Food" TxKind.expense,
       mkTx 8 ⟨2026, 10, 8⟩ 55 1 "Food" TxKind.expense] = [sc3Outlier]
  simp only [List.filter_cons, List.filter_nil, h1, h2, h3, h4, h5, h6, h7, h8,
    decide_eq_true_eq, if_true, if_false, decide_True, decide_False,
    Bool.false_eq_true, Bool.true_eq_false]
  rfl

end ExpTracker
